import Mathlib

/-!
Verification development for the evaluation/layout core of a
document-typesetting compiler.  The development shallowly embeds:

* the typed-value coercion framework of `src/library/font.rs`
  (`FontWeight`, `FontStretch`, `FontFamilies`, `FontFamily` casts);
* the `font` directive's deferred template and its snapshot/restore
  style scoping (`src/library/font.rs`);
* the `image` directive's template and `ImageNode::layout`
  (`src/library/image.rs`), with machine floats modelled as extended
  rationals (finite rational, plus/minus infinity, NaN);
* the fail-fast iterator combinators `try_map_ok` / `try_fold_ok`
  (`library/src/shared/ext.rs`), with the lazy Rust iterator embedded
  as an explicit state machine over a list-represented source.
-/

namespace Typst

/-! ## Dynamic values and cast results -/

/-- A dynamic script value.  Only the variants exercised by the
coercions under study are modelled; every other variant of the real
closed set behaves like the catch-all `other` for these casts. -/
inductive Value where
  | str (s : String)
  | int (n : ℤ)
  | relative (r : ℚ)
  | array (vs : List Value)
  | boolean (b : Bool)

/-- Outcome of coercing a `Value` into a target type. -/
inductive CastResult (α : Type) where
  | Ok (value : α)
  | Warn (value : α) (message : String)
  | Err (message : String)
deriving DecidableEq

/-- The generic type-mismatch error produced when no cast arm of a
`typify!` declaration matches, carrying the expected-type name. -/
def mismatch (expected : String) : CastResult α :=
  CastResult.Err ("expected " ++ expected)

/-- Rust's `str::to_lowercase`, modelled characterwise via Lean's
`Char.toLower` (the two coincide on the ASCII family names under
study). -/
def toLowercase (s : String) : String := ⟨s.data.map Char.toLower⟩

/-- Modelled from the spec: coercion of a `Value` to a plain string
(the target of the per-element cast inside the `FontFamilies` array
arm, whose rules live outside `src/`).  Only string values coerce to
strings; everything else fails to coerce. -/
def castString : Value → Option String
  | .str s => some s
  | _ => none

/-! ## Font weight -/

/-- Modelled from the spec: `FontWeight` (declared in `crate::font`,
outside `src/`) is backed by an integer in the fixed valid range
[100, 900]. -/
structure FontWeight where
  number : ℤ
deriving DecidableEq

/-- Modelled from the spec: the named preset `thin`, the lowest
representable weight (100). -/
def FontWeight.THIN : FontWeight := ⟨100⟩

/-- Modelled from the spec: the named preset `black`, the highest
representable weight (900). -/
def FontWeight.BLACK : FontWeight := ⟨900⟩

/-- Modelled from the spec: the backing number of a weight. -/
def FontWeight.to_number (w : FontWeight) : ℤ := w.number

/-- Modelled from the spec: map an integer onto the nearest
representable weight value (identity within [100, 900]). -/
def FontWeight.from_number (n : ℤ) : FontWeight := ⟨max 100 (min 900 n)⟩

/-- The out-of-range warning message for font weights, built exactly as
`format!("should be between {} and {}", min.to_number(), max.to_number())`
with `min = THIN` and `max = BLACK`. -/
def weightMessage : String :=
  "should be between " ++ toString FontWeight.THIN.to_number ++
    " and " ++ toString FontWeight.BLACK.to_number

/-- The `typify! FontWeight` cast of `src/library/font.rs`: integers
below `THIN` warn and clamp to `THIN`, integers above `BLACK` warn and
clamp to `BLACK`, in-range integers succeed. -/
def castFontWeight : Value → CastResult FontWeight
  | .int number =>
      if number < FontWeight.THIN.to_number then
        CastResult.Warn FontWeight.THIN weightMessage
      else if number > FontWeight.BLACK.to_number then
        CastResult.Warn FontWeight.BLACK weightMessage
      else
        CastResult.Ok (FontWeight.from_number number)
  | _ => mismatch "font weight"

/-! ## Font stretch -/

/-- Modelled from the spec: `FontStretch` (declared in `crate::font`,
outside `src/`) is backed by a ratio in the fixed valid range
[0.5, 2.0]. -/
structure FontStretch where
  ratio : ℚ
deriving DecidableEq

/-- Modelled from the spec: the named preset `ultra-condensed`, the
lowest representable stretch (ratio 0.5). -/
def FontStretch.ULTRA_CONDENSED : FontStretch := ⟨1/2⟩

/-- Modelled from the spec: the named preset `ultra-expanded`, the
highest representable stretch (ratio 2.0). -/
def FontStretch.ULTRA_EXPANDED : FontStretch := ⟨2⟩

/-- Modelled from the spec: the backing ratio of a stretch. -/
def FontStretch.to_ratio (s : FontStretch) : ℚ := s.ratio

/-- Modelled from the spec: map a ratio onto the nearest representable
stretch, clamping to the nearer bound of [0.5, 2.0]. -/
def FontStretch.from_ratio (r : ℚ) : FontStretch := ⟨max (1/2) (min 2 r)⟩

/-- The out-of-range warning message for font stretches, stating the
valid range in the type's natural presentation (relative ratios,
displayed as percentages by the `Relative` formatter, which lives
outside `src/` and is modelled from the spec). -/
def stretchMessage : String := "should be between 50% and 200%"

/-- The `typify! FontStretch` cast of `src/library/font.rs`: relative
values outside [`ULTRA_CONDENSED`, `ULTRA_EXPANDED`] warn with the
value clamped by `from_ratio`; in-range values succeed. -/
def castFontStretch : Value → CastResult FontStretch
  | .relative relative =>
      let ratio := relative
      let value := FontStretch.from_ratio ratio
      if ratio < FontStretch.ULTRA_CONDENSED.to_ratio ∨
          ratio > FontStretch.ULTRA_EXPANDED.to_ratio then
        CastResult.Warn value stretchMessage
      else
        CastResult.Ok value
  | _ => mismatch "font stretch"

/-! ## Font families -/

/-- A single font family, as configured by the `font` directive. -/
inductive FontFamily where
  | serif
  | sans_serif
  | monospace
  | named (s : String)
deriving DecidableEq

/-- The `typify! FontFamily` cast: strings become named families,
lower-cased. -/
def castFontFamily : Value → CastResult FontFamily
  | .str string => CastResult.Ok (FontFamily.named (toLowercase string))
  | _ => mismatch "font family"

/-- A list of font family names (`FontFamilies` in
`src/library/font.rs`). -/
structure FontFamilies where
  names : List String
deriving DecidableEq

/-- The `typify! FontFamilies` cast: a string becomes a singleton
lower-cased list; an array is filtered to the elements that coerce to
strings, each lower-cased, keeping their order. -/
def castFontFamilies : Value → CastResult FontFamilies
  | .str string => CastResult.Ok ⟨[toLowercase string]⟩
  | .array values =>
      CastResult.Ok ⟨(values.filterMap castString).map toLowercase⟩
  | _ => mismatch "string or array of strings"

/-! ## Styles, evaluation context and the font template -/

/-- A linear length: an absolute part plus a part relative to some
contextual length (`Linear` in the geometry layer, outside `src/`,
modelled from the spec's "relative length" with `rel.is_zero()`
meaning the relative part is the zero ratio). -/
structure Linear where
  rel : ℚ
  abs : ℚ
deriving DecidableEq

/-- Modelled from the spec: `Relative::ONE.into()`, the identity
relative value 1.0 viewed as a linear length. -/
def Linear.relativeOne : Linear := ⟨1, 0⟩

/-- A font style. -/
inductive FontStyle where
  | normal
  | italic
  | oblique
deriving DecidableEq

/-- A vertical font metric. -/
inductive VerticalFontMetric where
  | ascender
  | cap_height
  | x_height
  | baseline
  | descender
deriving DecidableEq

/-- A font variant: style, weight and stretch. -/
structure FontVariant where
  style : FontStyle
  weight : FontWeight
  stretch : FontStretch
deriving DecidableEq

/-- The family lists reachable through `families_mut()`: the active
list plus the serif / sans-serif / monospace definitions. -/
structure FamilyLists where
  list : List FontFamily
  serif : List String
  sans_serif : List String
  monospace : List String
deriving DecidableEq

/-- An abstract glyph fill; only the colored fill is exercised here,
with colors abstracted to their payload. -/
inductive Fill where
  | Color (c : ℕ)
deriving DecidableEq

/-- The font part of the working style state. -/
structure FontState where
  size : ℚ
  scale : Linear
  families : FamilyLists
  variant : FontVariant
  top_edge : VerticalFontMetric
  bottom_edge : VerticalFontMetric
  color : Fill
deriving DecidableEq

/-- The working style state held by the evaluation context (`State`);
the claims under study only touch its font component. -/
structure State where
  font : FontState
deriving DecidableEq

/-- A content node pushed into the evaluation context's sink.  The
image node carries its resource id, pixel dimensions and optional
width/height overrides. -/
structure ImageNode where
  id : ℕ
  dimensions : ℕ × ℕ
  width : Option Linear
  height : Option Linear
deriving DecidableEq

/-- A recorded diagnostic: a source span paired with a message. -/
structure Diag where
  span : ℕ
  message : String
deriving DecidableEq

/-- The mutable evaluation context: working style state, content sink
and diagnostics channel. -/
structure EvalContext where
  state : State
  sink : List ImageNode
  diags : List Diag
deriving DecidableEq

/-- `ctx.push(node)`: append a content node to the sink. -/
def EvalContext.push (ctx : EvalContext) (node : ImageNode) : EvalContext :=
  { ctx with sink := ctx.sink ++ [node] }

/-- `ctx.diag(diagnostic)`: record a diagnostic. -/
def EvalContext.diag (ctx : EvalContext) (d : Diag) : EvalContext :=
  { ctx with diags := ctx.diags ++ [d] }

/-- The already-coerced arguments captured by the `font` template
closure at construction time. -/
structure FontArgs where
  size : Option Linear
  list : List FontFamily
  style : Option FontStyle
  weight : Option FontWeight
  stretch : Option FontStretch
  top_edge : Option VerticalFontMetric
  bottom_edge : Option VerticalFontMetric
  color : Option ℕ
  serif : Option (List String)
  sans_serif : Option (List String)
  monospace : Option (List String)

/-- The size block of the `font` template: a size whose relative part
is zero sets the absolute font size and resets the scale to the
identity relative value; otherwise only the scale is set. -/
def applySize (size : Option Linear) (ctx : EvalContext) : EvalContext :=
  match size with
  | some linear =>
      if linear.rel = 0 then
        { ctx with state.font.size := linear.abs,
                   state.font.scale := Linear.relativeOne }
      else
        { ctx with state.font.scale := linear }
  | none => ctx

/-- The family-list block: a non-empty variadic family list replaces
the active list. -/
def applyList (list : List FontFamily) (ctx : EvalContext) : EvalContext :=
  if !list.isEmpty then { ctx with state.font.families.list := list } else ctx

/-- The `style` block. -/
def applyStyle (style : Option FontStyle) (ctx : EvalContext) : EvalContext :=
  match style with
  | some style => { ctx with state.font.variant.style := style }
  | none => ctx

/-- The `weight` block. -/
def applyWeight (weight : Option FontWeight) (ctx : EvalContext) : EvalContext :=
  match weight with
  | some weight => { ctx with state.font.variant.weight := weight }
  | none => ctx

/-- The `stretch` block. -/
def applyStretch (stretch : Option FontStretch) (ctx : EvalContext) :
    EvalContext :=
  match stretch with
  | some stretch => { ctx with state.font.variant.stretch := stretch }
  | none => ctx

/-- The `top-edge` block. -/
def applyTopEdge (top_edge : Option VerticalFontMetric) (ctx : EvalContext) :
    EvalContext :=
  match top_edge with
  | some top_edge => { ctx with state.font.top_edge := top_edge }
  | none => ctx

/-- The `bottom-edge` block. -/
def applyBottomEdge (bottom_edge : Option VerticalFontMetric)
    (ctx : EvalContext) : EvalContext :=
  match bottom_edge with
  | some bottom_edge => { ctx with state.font.bottom_edge := bottom_edge }
  | none => ctx

/-- The `color` block. -/
def applyColor (color : Option ℕ) (ctx : EvalContext) : EvalContext :=
  match color with
  | some color => { ctx with state.font.color := Fill.Color color }
  | none => ctx

/-- The `serif` block. -/
def applySerif (serif : Option (List String)) (ctx : EvalContext) :
    EvalContext :=
  match serif with
  | some serif => { ctx with state.font.families.serif := serif }
  | none => ctx

/-- The `sans-serif` block. -/
def applySansSerif (sans_serif : Option (List String)) (ctx : EvalContext) :
    EvalContext :=
  match sans_serif with
  | some sans_serif => { ctx with state.font.families.sans_serif := sans_serif }
  | none => ctx

/-- The `monospace` block. -/
def applyMonospace (monospace : Option (List String)) (ctx : EvalContext) :
    EvalContext :=
  match monospace with
  | some monospace => { ctx with state.font.families.monospace := monospace }
  | none => ctx

/-- The in-place property-application part of the `font` template
(`src/library/font.rs`, the body of the closure between the snapshot
and the optional body execution): each present parameter overwrites
the corresponding field of the working style state in source order,
absent parameters are no-ops. -/
def fontApply (args : FontArgs) (ctx : EvalContext) : EvalContext :=
  let ctx := applySize args.size ctx
  let ctx := applyList args.list ctx
  let ctx := applyStyle args.style ctx
  let ctx := applyWeight args.weight ctx
  let ctx := applyStretch args.stretch ctx
  let ctx := applyTopEdge args.top_edge ctx
  let ctx := applyBottomEdge args.bottom_edge ctx
  let ctx := applyColor args.color ctx
  let ctx := applySerif args.serif ctx
  let ctx := applySansSerif args.sans_serif ctx
  applyMonospace args.monospace ctx

/-- One execution of the template produced by the `font` directive:
snapshot the style state, apply the supplied properties in place, and
if a body was supplied, execute it and restore the snapshot. -/
def fontTemplate (args : FontArgs) (body : Option (EvalContext → EvalContext))
    (ctx : EvalContext) : EvalContext :=
  let snapshot := ctx.state
  let ctx := fontApply args ctx
  match body with
  | some b => { b ctx with state := snapshot }
  | none => ctx

/-! ## Extended reals for layout lengths

The geometry layer computes with `f64` lengths that may legitimately be
infinite ("unbounded in that axis").  We model them as extended
rationals: a finite rational, positive or negative infinity, or NaN,
with the IEEE semantics of the operations the layout code uses.  Only
one zero is modelled; the layout code never produces a negative zero
from the nonnegative sizes it works with. -/

/-- An extended rational modelling an `f64` length or ratio. -/
inductive XR where
  | fin (q : ℚ)
  | inf
  | ninf
  | nan
deriving DecidableEq

/-- `is_finite`: true exactly on finite values. -/
def XR.isFinite : XR → Bool
  | .fin _ => true
  | _ => false

/-- IEEE `<`: NaN compares false with everything. -/
def XR.lt : XR → XR → Bool
  | .fin a, .fin b => a < b
  | .fin _, .inf => true
  | .ninf, .fin _ => true
  | .ninf, .inf => true
  | _, _ => false

/-- IEEE addition (restricted to the value grid of the model). -/
def XR.add : XR → XR → XR
  | .nan, _ => .nan
  | _, .nan => .nan
  | .fin a, .fin b => .fin (a + b)
  | .fin _, .inf => .inf
  | .fin _, .ninf => .ninf
  | .inf, .fin _ => .inf
  | .ninf, .fin _ => .ninf
  | .inf, .inf => .inf
  | .ninf, .ninf => .ninf
  | .inf, .ninf => .nan
  | .ninf, .inf => .nan

/-- IEEE multiplication: zero times an infinity is NaN. -/
def XR.mul : XR → XR → XR
  | .nan, _ => .nan
  | _, .nan => .nan
  | .fin a, .fin b => .fin (a * b)
  | .fin a, .inf => if a > 0 then .inf else if a < 0 then .ninf else .nan
  | .fin a, .ninf => if a > 0 then .ninf else if a < 0 then .inf else .nan
  | .inf, .fin b => if b > 0 then .inf else if b < 0 then .ninf else .nan
  | .ninf, .fin b => if b > 0 then .ninf else if b < 0 then .inf else .nan
  | .inf, .inf => .inf
  | .ninf, .ninf => .inf
  | .inf, .ninf => .ninf
  | .ninf, .inf => .ninf

/-- IEEE division: finite over zero is a signed infinity (the model's
single zero acting as `+0`), finite over infinite is zero, infinite
over infinite is NaN. -/
def XR.div : XR → XR → XR
  | .nan, _ => .nan
  | _, .nan => .nan
  | .fin a, .fin b =>
      if b ≠ 0 then .fin (a / b)
      else if a > 0 then .inf
      else if a < 0 then .ninf
      else .nan
  | .fin _, .inf => .fin 0
  | .fin _, .ninf => .fin 0
  | .inf, .fin b => if b ≥ 0 then .inf else .ninf
  | .ninf, .fin b => if b ≥ 0 then .ninf else .inf
  | .inf, .inf => .nan
  | .inf, .ninf => .nan
  | .ninf, .inf => .nan
  | .ninf, .ninf => .nan

/-! ## Image directive and image layout -/

/-- A 2-dimensional size of extended-rational lengths. -/
structure Size where
  width : XR
  height : XR
deriving DecidableEq

/-- The area constraints handed to a layout computation: the current
usable region and the full enclosing region. -/
structure Areas where
  current : Size
  full : Size
deriving DecidableEq

/-- Resolve a linear length against a contextual length:
`abs + rel * length` (modelled from the spec's "resolve any
width/height override expressed as a relative length against the
`full` region"). -/
def Linear.resolve (l : Linear) (length : XR) : XR :=
  XR.add (XR.fin l.abs) (XR.mul (XR.fin l.rel) length)

/-- A point in a frame's coordinate system. -/
structure Point where
  x : ℚ
  y : ℚ
deriving DecidableEq

/-- The frame origin. -/
def Point.ZERO : Point := ⟨0, 0⟩

/-- A positioned visual element; only the image element is modelled. -/
inductive Element where
  | Image (id : ℕ) (size : Size)
deriving DecidableEq

/-- A layout result: size, baseline, and positioned elements. -/
structure Frame where
  size : Size
  baseline : XR
  elements : List (Point × Element)
deriving DecidableEq

/-- `Frame::new(size, baseline)`: an empty frame. -/
def Frame.new (size : Size) (baseline : XR) : Frame :=
  ⟨size, baseline, []⟩

/-- `frame.push(point, element)`: append a positioned element. -/
def Frame.push (f : Frame) (p : Point) (e : Element) : Frame :=
  { f with elements := f.elements ++ [(p, e)] }

/-- `ImageNode::layout` (`src/library/image.rs`): resolve the frame
size from the optional overrides and the area constraints, and produce
a single frame whose baseline is its height, holding the image element
at the origin. -/
def ImageNode.layout (node : ImageNode) (areas : Areas) : List Frame :=
  let current := areas.current
  let full := areas.full
  let pixel_width : ℚ := (node.dimensions.1 : ℚ)
  let pixel_height : ℚ := (node.dimensions.2 : ℚ)
  let pixel_ratio := XR.div (.fin pixel_width) (.fin pixel_height)
  let width := node.width.map fun w => w.resolve full.width
  let height := node.height.map fun h => h.resolve full.height
  let size :=
    match width, height with
    | some width, some height => Size.mk width height
    | some width, none => Size.mk width (XR.div width pixel_ratio)
    | none, some height => Size.mk (XR.mul height pixel_ratio) height
    | none, none =>
        let ratio := XR.div current.width current.height
        if XR.lt ratio pixel_ratio && current.width.isFinite then
          Size.mk current.width (XR.div current.width pixel_ratio)
        else if current.height.isFinite then
          Size.mk (XR.mul current.height pixel_ratio) current.height
        else
          Size.mk (.fin pixel_width) (.fin pixel_height)
  let frame := Frame.new size size.height
  let frame := frame.push Point.ZERO (Element.Image node.id size)
  [frame]

/-- A value paired with its source span. -/
structure Spanned (α : Type) where
  v : α
  span : ℕ

/-- The external environment seen by the image template: a resource
loader (`None` on failure) and retrieval of an already-loaded image
resource's pixel dimensions. -/
structure Env where
  load_resource : String → Option ℕ
  dimensions : ℕ → ℕ × ℕ

/-- One execution of the template produced by the `image` directive
(`src/library/image.rs`): if the path argument was bound, try to load
the resource; on success push an `ImageNode` carrying the resource id,
its pixel dimensions and the overrides, otherwise record the
"failed to load image" diagnostic at the path's span. -/
def imageTemplate (env : Env) (path : Option (Spanned String))
    (width height : Option Linear) (ctx : EvalContext) : EvalContext :=
  match path with
  | some path =>
      match env.load_resource path.v with
      | some id =>
          let dimensions := env.dimensions id
          ctx.push { id := id, dimensions := dimensions,
                     width := width, height := height }
      | none => ctx.diag ⟨path.span, "failed to load image"⟩
  | none => ctx

/-! ## Fail-fast iterator combinators

The combinators of `library/src/shared/ext.rs` work on lazy Rust
iterators.  The underlying source is embedded as the list of items it
would yield; the wrapping `FailFastMapIter` is embedded as an explicit
state machine whose `next` both returns the yielded item (if any) and
the successor state. -/

/-- The state of a `FailFastMapIter`: the bail flag, the remaining
underlying items, and the mapping function. -/
structure FailFastMapIter (T E U : Type) where
  bail : Bool
  iter : List (Except E T)
  mapfn : T → U

/-- `FailFastMapIter::next`: once bailed, yield nothing; otherwise pull
from the underlying source, mapping `Ok` payloads, bailing after the
first `Err` and after the source is exhausted. -/
def FailFastMapIter.next (s : FailFastMapIter T E U) :
    Option (Except E U) × FailFastMapIter T E U :=
  if s.bail then
    (none, s)
  else
    match s.iter with
    | [] => (none, { s with bail := true })
    | .ok value :: rest =>
        (some (.ok (s.mapfn value)), { s with iter := rest })
    | .error error :: rest =>
        (some (.error error), { s with bail := true, iter := rest })

/-- `try_map_ok`: wrap a source in a fresh, non-bailed fail-fast
mapping iterator. -/
def try_map_ok (l : List (Except E T)) (mapfn : T → U) :
    FailFastMapIter T E U :=
  { bail := false, iter := l, mapfn := mapfn }

/-- Drive a fail-fast iterator for at most `fuel` steps, collecting
every yielded item until it first yields nothing. -/
def FailFastMapIter.collect (s : FailFastMapIter T E U) : ℕ → List (Except E U)
  | 0 => []
  | fuel + 1 =>
      match s.next with
      | (none, _) => []
      | (some x, s2) => x :: s2.collect fuel

/-- `try_fold_ok`: fold the combining function over the `Ok` payloads
of the source, returning the first `Err` unchanged without consuming
anything further. -/
def try_fold_ok (l : List (Except E T)) (initial : B) (foldfn : B → T → B) :
    Except E B :=
  match l with
  | [] => .ok initial
  | .ok value :: rest => try_fold_ok rest (foldfn initial value) foldfn
  | .error error :: _ => .error error

/-! ## Specification helpers

Derived views of the embedded operations, used to state the properties
under verification. -/

/-- The width override of an image node, resolved against the full
region's width. -/
def resolvedWidth (node : ImageNode) (areas : Areas) : Option XR :=
  node.width.map fun w => w.resolve areas.full.width

/-- The height override of an image node, resolved against the full
region's height. -/
def resolvedHeight (node : ImageNode) (areas : Areas) : Option XR :=
  node.height.map fun h => h.resolve areas.full.height

/-- The intrinsic aspect ratio of an image node's pixel dimensions. -/
def pixelRatio (node : ImageNode) : XR :=
  XR.div (.fin (node.dimensions.1 : ℚ)) (.fin (node.dimensions.2 : ℚ))

/-- The expected full output of a fail-fast mapping iterator over a
given source: transformed `Ok` items up to the first `Err`, which
(when present) is the final item. -/
def ffOut (mapfn : T → U) : List (Except E T) → List (Except E U)
  | [] => []
  | .ok value :: rest => .ok (mapfn value) :: ffOut mapfn rest
  | .error error :: _ => [.error error]

/-- A mapping over `Except` values acting on the `ok` payload. -/
def exceptMap (mapfn : T → U) : Except E T → Except E U
  | .ok value => .ok (mapfn value)
  | .error error => .error error

/-- A concrete working style state used to instantiate universally
quantified properties. -/
def state0 : State :=
  ⟨⟨10, ⟨0, 10⟩, ⟨[], [], [], []⟩, ⟨.normal, ⟨400⟩, ⟨1⟩⟩, .ascender,
    .baseline, .Color 0⟩⟩

/-- A concrete evaluation context over `state0`. -/
def ctx0 : EvalContext := ⟨state0, [], []⟩

/-- Concrete `font` arguments: an absolute size of 12, nothing else. -/
def args0 : FontArgs :=
  ⟨some ⟨0, 12⟩, [], none, none, none, none, none, none, none, none, none⟩

/-! ## Coercion properties -/

/-- C3: for every integer `w`, casting `w` to `FontWeight` yields `Ok`
of the weight for `w` when 100 ≤ w ≤ 900; yields `Warn` with the value
clamped to 100 when w < 100; yields `Warn` with the value clamped to
900 when w > 900; and the warning message names both boundaries 100
and 900. -/
theorem castFontWeight_policy (w : ℤ) :
    (100 ≤ w → w ≤ 900 → castFontWeight (.int w) = CastResult.Ok ⟨w⟩) ∧
    (w < 100 → castFontWeight (.int w) = CastResult.Warn ⟨100⟩ weightMessage) ∧
    (900 < w → castFontWeight (.int w) = CastResult.Warn ⟨900⟩ weightMessage) ∧
    weightMessage = "should be between 100 and 900" := by
  refine ⟨?_, ?_, ?_, by decide⟩
  · intro h1 h2
    simp only [castFontWeight, FontWeight.to_number, FontWeight.THIN,
      FontWeight.BLACK, FontWeight.from_number]
    rw [if_neg (by omega), if_neg (by omega)]
    congr 2
    omega
  · intro h
    simp only [castFontWeight, FontWeight.to_number, FontWeight.THIN,
      FontWeight.BLACK]
    rw [if_pos h]
  · intro h
    simp only [castFontWeight, FontWeight.to_number, FontWeight.THIN,
      FontWeight.BLACK]
    rw [if_neg (by omega), if_pos h]

/-- Witness for C3 at `w = 450`, `w = 50` and `w = 1000`. -/
theorem castFontWeight_policy_witness :
    castFontWeight (.int 450) = CastResult.Ok ⟨450⟩ ∧
    castFontWeight (.int 50) = CastResult.Warn ⟨100⟩ weightMessage ∧
    castFontWeight (.int 1000) = CastResult.Warn ⟨900⟩ weightMessage :=
  ⟨(castFontWeight_policy 450).1 (by decide) (by decide),
   (castFontWeight_policy 50).2.1 (by decide),
   (castFontWeight_policy 1000).2.2.1 (by decide)⟩

/-- C4: for every relative value `r`, casting `r` to `FontStretch`
yields `Ok` of the stretch for `r` when 0.5 ≤ r ≤ 2.0, and yields
`Warn` with the value clamped to the nearer of the bounds 0.5 and 2.0
when `r` is outside that range, with a message stating the valid range
as ratios. -/
theorem castFontStretch_policy (r : ℚ) :
    (1/2 ≤ r → r ≤ 2 → castFontStretch (.relative r) = CastResult.Ok ⟨r⟩) ∧
    (r < 1/2 →
      castFontStretch (.relative r) = CastResult.Warn ⟨1/2⟩ stretchMessage) ∧
    (2 < r →
      castFontStretch (.relative r) = CastResult.Warn ⟨2⟩ stretchMessage) ∧
    stretchMessage = "should be between 50% and 200%" := by
  refine ⟨?_, ?_, ?_, rfl⟩
  · intro h1 h2
    simp only [castFontStretch, FontStretch.to_ratio, FontStretch.ULTRA_CONDENSED,
      FontStretch.ULTRA_EXPANDED, FontStretch.from_ratio]
    rw [if_neg (by push_neg; exact ⟨h1, h2⟩)]
    congr 2
    rw [min_eq_right h2, max_eq_right h1]
  · intro h
    simp only [castFontStretch, FontStretch.to_ratio, FontStretch.ULTRA_CONDENSED,
      FontStretch.ULTRA_EXPANDED, FontStretch.from_ratio]
    rw [if_pos (Or.inl h)]
    congr 2
    rw [min_eq_right (le_of_lt (lt_trans h (by norm_num))),
      max_eq_left (le_of_lt h)]
  · intro h
    simp only [castFontStretch, FontStretch.to_ratio, FontStretch.ULTRA_CONDENSED,
      FontStretch.ULTRA_EXPANDED, FontStretch.from_ratio]
    rw [if_pos (Or.inr h)]
    congr 2
    rw [min_eq_left (le_of_lt h), max_eq_right (by norm_num)]

/-- Witness for C4 at `r = 1`, `r = 1/4` and `r = 3`. -/
theorem castFontStretch_policy_witness :
    castFontStretch (.relative 1) = CastResult.Ok ⟨1⟩ ∧
    castFontStretch (.relative (1/4)) = CastResult.Warn ⟨1/2⟩ stretchMessage ∧
    castFontStretch (.relative 3) = CastResult.Warn ⟨2⟩ stretchMessage :=
  ⟨(castFontStretch_policy 1).1 (by norm_num) (by norm_num),
   (castFontStretch_policy (1/4)).2.1 (by norm_num),
   (castFontStretch_policy 3).2.2.1 (by norm_num)⟩

/-- C7: casting an array to `FontFamilies` yields exactly the elements
that coerce to strings, lower-cased, in their original order, with
every non-string element silently dropped and no error or warning
produced; in particular `["Serif", 5, "MONO"]` yields
`["serif", "mono"]`. -/
theorem castFontFamilies_array_policy (vs : List Value) :
    castFontFamilies (.array vs) =
      CastResult.Ok ⟨vs.filterMap fun v =>
        match v with
        | .str s => some (toLowercase s)
        | _ => none⟩ ∧
    castFontFamilies (.array [.str "Serif", .int 5, .str "MONO"]) =
      CastResult.Ok ⟨["serif", "mono"]⟩ := by
  refine ⟨?_, by decide⟩
  simp only [castFontFamilies, CastResult.Ok.injEq, FontFamilies.mk.injEq]
  induction vs with
  | nil => rfl
  | cons v rest ih => cases v <;> simpa [castString] using ih

/-! ## Font template properties -/

/-- C1: for every execution of the template produced by the `font`
directive, if a body argument was supplied the style state immediately
after the call equals the pre-call snapshot, even though the body
itself ran on the modified context; if no body argument was supplied,
the applied property changes remain in the context's style state. -/
theorem fontTemplate_scoping (args : FontArgs)
    (body : EvalContext → EvalContext) (ctx : EvalContext) :
    (fontTemplate args (some body) ctx).state = ctx.state ∧
    fontTemplate args (some body) ctx
      = { body (fontApply args ctx) with state := ctx.state } ∧
    fontTemplate args none ctx = fontApply args ctx :=
  ⟨rfl, rfl, rfl⟩

/-- The font size and scale seen by a context, as a pair. -/
def sizeScale (ctx : EvalContext) : ℚ × Linear :=
  (ctx.state.font.size, ctx.state.font.scale)

theorem sizeScale_applyList (list : List FontFamily) (ctx : EvalContext) :
    sizeScale (applyList list ctx) = sizeScale ctx := by
  unfold applyList; split <;> rfl

theorem sizeScale_applyStyle (style : Option FontStyle) (ctx : EvalContext) :
    sizeScale (applyStyle style ctx) = sizeScale ctx := by
  cases style <;> rfl

theorem sizeScale_applyWeight (weight : Option FontWeight) (ctx : EvalContext) :
    sizeScale (applyWeight weight ctx) = sizeScale ctx := by
  cases weight <;> rfl

theorem sizeScale_applyStretch (stretch : Option FontStretch)
    (ctx : EvalContext) : sizeScale (applyStretch stretch ctx) = sizeScale ctx := by
  cases stretch <;> rfl

theorem sizeScale_applyTopEdge (top_edge : Option VerticalFontMetric)
    (ctx : EvalContext) : sizeScale (applyTopEdge top_edge ctx) = sizeScale ctx := by
  cases top_edge <;> rfl

theorem sizeScale_applyBottomEdge (bottom_edge : Option VerticalFontMetric)
    (ctx : EvalContext) :
    sizeScale (applyBottomEdge bottom_edge ctx) = sizeScale ctx := by
  cases bottom_edge <;> rfl

theorem sizeScale_applyColor (color : Option ℕ) (ctx : EvalContext) :
    sizeScale (applyColor color ctx) = sizeScale ctx := by
  cases color <;> rfl

theorem sizeScale_applySerif (serif : Option (List String)) (ctx : EvalContext) :
    sizeScale (applySerif serif ctx) = sizeScale ctx := by
  cases serif <;> rfl

theorem sizeScale_applySansSerif (sans_serif : Option (List String))
    (ctx : EvalContext) :
    sizeScale (applySansSerif sans_serif ctx) = sizeScale ctx := by
  cases sans_serif <;> rfl

theorem sizeScale_applyMonospace (monospace : Option (List String))
    (ctx : EvalContext) :
    sizeScale (applyMonospace monospace ctx) = sizeScale ctx := by
  cases monospace <;> rfl

/-- Only the size block of the `font` template touches the font size
and scale. -/
theorem sizeScale_fontApply (args : FontArgs) (ctx : EvalContext) :
    sizeScale (fontApply args ctx) = sizeScale (applySize args.size ctx) := by
  unfold fontApply
  rw [sizeScale_applyMonospace, sizeScale_applySansSerif, sizeScale_applySerif,
    sizeScale_applyColor, sizeScale_applyBottomEdge, sizeScale_applyTopEdge,
    sizeScale_applyStretch, sizeScale_applyWeight, sizeScale_applyStyle,
    sizeScale_applyList]

/-- C10: for every execution of the `font` template without a body:
with a size argument whose relative part is zero, the font size is set
to the absolute part and the scale is reset to the identity relative
value; with a non-zero relative part, only the scale is set to the
given linear value and the size is unchanged; without a size argument,
both fields are unchanged.  (With a body, the template's own scoping
restores the state afterwards; these are the values the applied state
carries during and after the size block.) -/
theorem fontTemplate_size_handling (args : FontArgs) (ctx : EvalContext) :
    (∀ linear, args.size = some linear →
      (linear.rel = 0 →
        (fontTemplate args none ctx).state.font.size = linear.abs ∧
        (fontTemplate args none ctx).state.font.scale = Linear.relativeOne) ∧
      (linear.rel ≠ 0 →
        (fontTemplate args none ctx).state.font.size = ctx.state.font.size ∧
        (fontTemplate args none ctx).state.font.scale = linear)) ∧
    (args.size = none →
      (fontTemplate args none ctx).state.font.size = ctx.state.font.size ∧
      (fontTemplate args none ctx).state.font.scale = ctx.state.font.scale) := by
  have h : sizeScale (fontTemplate args none ctx)
      = sizeScale (applySize args.size ctx) := sizeScale_fontApply args ctx
  have h1 := congrArg Prod.fst h
  have h2 := congrArg Prod.snd h
  simp only [sizeScale] at h1 h2
  constructor
  · intro linear hsize
    constructor
    · intro hrel
      rw [hsize] at h1 h2
      simp only [applySize, if_pos hrel] at h1 h2
      exact ⟨h1, h2⟩
    · intro hrel
      rw [hsize] at h1 h2
      simp only [applySize, if_neg hrel] at h1 h2
      exact ⟨h1, h2⟩
  · intro hsize
    rw [hsize] at h1 h2
    simp only [applySize] at h1 h2
    exact ⟨h1, h2⟩

/-- Witness for C10: a purely absolute size of 12 sets the font size
to 12 and resets the scale. -/
theorem fontTemplate_size_handling_witness :
    (fontTemplate args0 none ctx0).state.font.size = 12 ∧
    (fontTemplate args0 none ctx0).state.font.scale = Linear.relativeOne :=
  ((fontTemplate_size_handling args0 ctx0).1 ⟨0, 12⟩ rfl).1 rfl

/-! ## Image properties -/

/-- C9: for every image node and every area constraints,
`ImageNode::layout` returns exactly one frame; its baseline equals its
height, and its element list holds exactly one positioned element, the
image element carrying the node's resource id, placed at the frame
origin. -/
theorem imageNode_layout_frame (node : ImageNode) (areas : Areas) :
    ∃ size, node.layout areas =
      [{ size := size, baseline := size.height,
         elements := [(Point.ZERO, Element.Image node.id size)] }] :=
  ⟨_, rfl⟩

/-- C2: `ImageNode::layout` resolves the frame size by the four-case
priority policy: both overrides resolved → used directly; only width →
height derived from the pixel ratio; only height → width derived; no
overrides → fit to a finite, proportionally narrower current width,
else to a finite current height, else fall back to the intrinsic pixel
dimensions as points.  In particular, pixels 100×50 with current
region (150, ∞) and no overrides give the frame size (150, 75). -/
theorem imageNode_layout_size_policy (node : ImageNode) (areas : Areas) :
    (∀ w h, resolvedWidth node areas = some w →
      resolvedHeight node areas = some h →
      (node.layout areas).map Frame.size = [Size.mk w h]) ∧
    (∀ w, resolvedWidth node areas = some w →
      resolvedHeight node areas = none →
      (node.layout areas).map Frame.size
        = [Size.mk w (XR.div w (pixelRatio node))]) ∧
    (∀ h, resolvedWidth node areas = none →
      resolvedHeight node areas = some h →
      (node.layout areas).map Frame.size
        = [Size.mk (XR.mul h (pixelRatio node)) h]) ∧
    (resolvedWidth node areas = none → resolvedHeight node areas = none →
      (node.layout areas).map Frame.size =
        [if XR.lt (XR.div areas.current.width areas.current.height)
              (pixelRatio node)
            && areas.current.width.isFinite then
          Size.mk areas.current.width
            (XR.div areas.current.width (pixelRatio node))
        else if areas.current.height.isFinite then
          Size.mk (XR.mul areas.current.height (pixelRatio node))
            areas.current.height
        else
          Size.mk (.fin (node.dimensions.1 : ℚ))
            (.fin (node.dimensions.2 : ℚ))]) ∧
    (ImageNode.layout ⟨0, (100, 50), none, none⟩
        ⟨⟨.fin 150, .inf⟩, ⟨.inf, .inf⟩⟩).map Frame.size
      = [Size.mk (.fin 150) (.fin 75)] := by
  refine ⟨?_, ?_, ?_, ?_, by
    norm_num [ImageNode.layout, XR.div, XR.lt, XR.isFinite, Frame.new,
      Frame.push]⟩
  · intro w h hw hh
    simp only [resolvedWidth] at hw
    simp only [resolvedHeight] at hh
    simp [ImageNode.layout, hw, hh, Frame.new, Frame.push]
  · intro w hw hh
    simp only [resolvedWidth] at hw
    simp only [resolvedHeight] at hh
    simp [ImageNode.layout, hw, hh, Frame.new, Frame.push, pixelRatio]
  · intro h hw hh
    simp only [resolvedWidth] at hw
    simp only [resolvedHeight] at hh
    simp [ImageNode.layout, hw, hh, Frame.new, Frame.push, pixelRatio]
  · intro hw hh
    simp only [resolvedWidth] at hw
    simp only [resolvedHeight] at hh
    simp [ImageNode.layout, hw, hh, Frame.new, Frame.push, pixelRatio]

/-- Witness for C2: a width override resolving to 200 on a 100×50
image gives the frame size (200, 100). -/
theorem imageNode_layout_size_policy_witness :
    (ImageNode.layout ⟨1, (100, 50), some ⟨0, 200⟩, none⟩
        ⟨⟨.fin 300, .fin 300⟩, ⟨.fin 300, .fin 300⟩⟩).map Frame.size
      = [Size.mk (.fin 200) (.fin 100)] := by
  have h := (imageNode_layout_size_policy ⟨1, (100, 50), some ⟨0, 200⟩, none⟩
      ⟨⟨.fin 300, .fin 300⟩, ⟨.fin 300, .fin 300⟩⟩).2.1 (.fin 200)
    (by norm_num [resolvedWidth, Linear.resolve, XR.add, XR.mul]) rfl
  rw [h]
  norm_num [pixelRatio, XR.div]

/-- C8: for every execution of the `image` directive's template with a
bound path, a failing resource load pushes no content node and records
exactly one "failed to load image" diagnostic at the path's span; a
successful load pushes an `ImageNode` carrying the resource id, the
resource's pixel dimensions and the overrides, recording no
diagnostic. -/
theorem imageTemplate_behavior (env : Env) (p : Spanned String)
    (width height : Option Linear) (ctx : EvalContext) :
    (env.load_resource p.v = none →
      imageTemplate env (some p) width height ctx
        = { ctx with
            diags := ctx.diags ++ [⟨p.span, "failed to load image"⟩] }) ∧
    (∀ id, env.load_resource p.v = some id →
      imageTemplate env (some p) width height ctx
        = { ctx with
            sink := ctx.sink ++ [⟨id, env.dimensions id, width, height⟩] }) := by
  constructor
  · intro h
    simp [imageTemplate, h, EvalContext.diag]
  · intro id h
    simp [imageTemplate, h, EvalContext.push]

/-- Witness for C8: a loader that always fails records the diagnostic;
a loader that returns id 7 with dimensions 100×50 pushes the node. -/
theorem imageTemplate_behavior_witness :
    imageTemplate ⟨fun _ => none, fun _ => (0, 0)⟩ (some ⟨"img.png", 3⟩)
        none none ctx0
      = { ctx0 with diags := [⟨3, "failed to load image"⟩] } ∧
    imageTemplate ⟨fun _ => some 7, fun _ => (100, 50)⟩ (some ⟨"img.png", 3⟩)
        none none ctx0
      = { ctx0 with sink := [⟨7, (100, 50), none, none⟩] } := by
  constructor
  · have h := (imageTemplate_behavior ⟨fun _ => none, fun _ => (0, 0)⟩
        ⟨"img.png", 3⟩ none none ctx0).1 rfl
    simpa [ctx0] using h
  · have h := (imageTemplate_behavior ⟨fun _ => some 7, fun _ => (100, 50)⟩
        ⟨"img.png", 3⟩ none none ctx0).2 7 rfl
    simpa [ctx0] using h

/-! ## Fail-fast iterator properties -/

theorem collect_bailed {T E U : Type} (s : FailFastMapIter T E U)
    (hs : s.bail = true) (fuel : ℕ) : s.collect fuel = [] := by
  cases fuel with
  | zero => rfl
  | succ n => simp [FailFastMapIter.collect, FailFastMapIter.next, hs]

theorem collect_eq_ffOut {T E U : Type} (mapfn : T → U)
    (l : List (Except E T)) (fuel : ℕ) :
    FailFastMapIter.collect ⟨false, l, mapfn⟩ fuel = (ffOut mapfn l).take fuel := by
  induction l generalizing fuel with
  | nil => cases fuel <;>
      simp [FailFastMapIter.collect, FailFastMapIter.next, ffOut]
  | cons x rest ih =>
      cases fuel with
      | zero => rfl
      | succ n =>
          cases x with
          | ok v =>
              simp [FailFastMapIter.collect, FailFastMapIter.next, ffOut, ih]
          | error e =>
              simp [FailFastMapIter.collect, FailFastMapIter.next, ffOut,
                collect_bailed]

theorem ffOut_firstError {T E U : Type} (mapfn : T → U) :
    ∀ (l : List (Except E T)) (k : ℕ) (e : E),
      (∀ x ∈ l.take k, ∃ v, x = Except.ok v) →
      l.get? k = some (Except.error e) →
      ffOut mapfn l = ((l.take k).map (exceptMap mapfn)) ++ [Except.error e]
  | l, 0, e, _, hk => by
      cases l with
      | nil => simp at hk
      | cons x rest =>
          simp only [List.get?] at hk
          obtain rfl : x = Except.error e := by injection hk
          simp [ffOut]
  | l, (k + 1), e, hok, hk => by
      cases l with
      | nil => simp at hk
      | cons x rest =>
          obtain ⟨v, rfl⟩ := hok x (by simp)
          simp only [List.get?] at hk
          simp only [List.take, List.map, ffOut, exceptMap, List.cons_append,
            List.cons.injEq, true_and]
          exact ffOut_firstError mapfn rest k e
            (fun y hy => hok y (by simp [hy])) hk

theorem ffOut_allOk {T E U : Type} (mapfn : T → U) (l : List (Except E T))
    (hok : ∀ x ∈ l, ∃ v, x = Except.ok v) :
    ffOut mapfn l = l.map (exceptMap mapfn) := by
  induction l with
  | nil => rfl
  | cons x rest ih =>
      obtain ⟨v, rfl⟩ := hok x (by simp)
      simp [ffOut, exceptMap, ih (fun y hy => hok y (by simp [hy]))]

/-- C5: for every underlying sequence whose first `Err` sits at
position `k`, driving the iterator built by `try_map_ok` yields the
`k` transformed `Ok` items in order, then that `Err`, then nothing
more, however long it is driven and regardless of what the source
holds afterwards; an all-`Ok` source yields only the transformed items
and ends; and a bailed iterator never yields again. -/
theorem try_map_ok_spec {T E U : Type} (l : List (Except E T)) (mapfn : T → U) :
    (∀ k e, (∀ x ∈ l.take k, ∃ v, x = Except.ok v) →
      l.get? k = some (Except.error e) →
      ∀ fuel, (try_map_ok l mapfn).collect fuel
        = (((l.take k).map (exceptMap mapfn)) ++ [Except.error e]).take fuel) ∧
    ((∀ x ∈ l, ∃ v, x = Except.ok v) →
      ∀ fuel, (try_map_ok l mapfn).collect fuel
        = (l.map (exceptMap mapfn)).take fuel) ∧
    (∀ s : FailFastMapIter T E U, s.bail = true → s.next = (none, s)) := by
  refine ⟨?_, ?_, ?_⟩
  · intro k e hok hk fuel
    rw [show try_map_ok l mapfn = ⟨false, l, mapfn⟩ from rfl, collect_eq_ffOut,
      ffOut_firstError mapfn l k e hok hk]
  · intro hok fuel
    rw [show try_map_ok l mapfn = ⟨false, l, mapfn⟩ from rfl, collect_eq_ffOut,
      ffOut_allOk mapfn l hok]
  · intro s hs
    simp [FailFastMapIter.next, hs]

/-- Witness for C5: source `[ok 1, error "boom", ok 5]` with successor
mapping, driven for 10 steps, yields `[ok 2, error "boom"]`. -/
theorem try_map_ok_spec_witness :
    (try_map_ok [Except.ok 1, Except.error "boom", Except.ok 5]
        (fun n : ℕ => n + 1)).collect 10
      = [Except.ok 2, Except.error "boom"] := by
  have h := (try_map_ok_spec [Except.ok 1, Except.error "boom", Except.ok 5]
      (fun n : ℕ => n + 1)).1 1 "boom"
    (by
      intro x hx
      simp only [List.take, List.mem_singleton, List.mem_cons,
        List.not_mem_nil, or_false] at hx
      exact ⟨1, hx⟩)
    rfl 10
  exact h.trans rfl

theorem try_fold_ok_append_firstError {T E B : Type} (foldfn : B → T → B)
    (e : E) :
    ∀ (pre : List (Except E T)), (∀ x ∈ pre, ∃ v, x = Except.ok v) →
      ∀ (rest : List (Except E T)) (b : B),
        try_fold_ok (pre ++ Except.error e :: rest) b foldfn = Except.error e
  | [], _, rest, b => rfl
  | x :: pre, hok, rest, b => by
      obtain ⟨v, rfl⟩ := hok x (by simp)
      simpa [try_fold_ok] using
        try_fold_ok_append_firstError foldfn e pre
          (fun y hy => hok y (by simp [hy])) rest (foldfn b v)

theorem try_fold_ok_allOk {T E B : Type} (foldfn : B → T → B) :
    ∀ (vs : List T) (b : B),
      try_fold_ok (vs.map (Except.ok (ε := E))) b foldfn
        = Except.ok (vs.foldl foldfn b)
  | [], _ => rfl
  | v :: rest, b => by
      simpa [try_fold_ok] using try_fold_ok_allOk foldfn rest (foldfn b v)

/-- C6: `try_fold_ok` returns the first `Err` of the sequence, with
the partial accumulator discarded and the elements after the `Err`
irrelevant to the result; an `Err`-free sequence folds all `Ok`
payloads from the initial accumulator, the empty sequence giving back
the initial accumulator. -/
theorem try_fold_ok_spec {T E B : Type} (l : List (Except E T)) (b : B)
    (foldfn : B → T → B) :
    (∀ k e, (∀ x ∈ l.take k, ∃ v, x = Except.ok v) →
      l.get? k = some (Except.error e) →
      try_fold_ok l b foldfn = Except.error e ∧
      ∀ rest, try_fold_ok (l.take (k + 1) ++ rest) b foldfn = Except.error e) ∧
    (∀ vs : List T, l = vs.map Except.ok →
      try_fold_ok l b foldfn = Except.ok (vs.foldl foldfn b)) ∧
    try_fold_ok ([] : List (Except E T)) b foldfn = Except.ok b := by
  refine ⟨?_, ?_, rfl⟩
  · intro k e hok hk
    have htake : l.take (k + 1) = l.take k ++ [Except.error e] := by
      rw [List.get?_eq_getElem?] at hk
      rw [List.take_succ, hk]
      rfl
    constructor
    · conv_lhs => rw [← List.take_append_drop (k + 1) l]
      rw [htake, List.append_assoc]
      exact try_fold_ok_append_firstError foldfn e (l.take k) hok _ b
    · intro rest
      rw [htake, List.append_assoc]
      exact try_fold_ok_append_firstError foldfn e (l.take k) hok _ b
  · intro vs hvs
    subst hvs
    exact try_fold_ok_allOk foldfn vs b

/-- Witness for C6: folding `[ok 2, ok 3, error "bad", ok 9]` with
addition from 0 returns `error "bad"`. -/
theorem try_fold_ok_spec_witness :
    try_fold_ok [Except.ok 2, Except.ok 3, Except.error "bad", Except.ok 9] 0
        (fun a b : ℕ => a + b)
      = Except.error "bad" :=
  ((try_fold_ok_spec
      [Except.ok 2, Except.ok 3, Except.error "bad", Except.ok 9] 0
      (fun a b : ℕ => a + b)).1 2 "bad"
    (by
      intro x hx
      simp only [List.take, List.mem_cons, List.not_mem_nil, or_false] at hx
      rcases hx with rfl | rfl
      · exact ⟨2, rfl⟩
      · exact ⟨3, rfl⟩)
    rfl).1

end Typst
